import Mathlib

/-!
Shallow embedding of the rules2lint rule-processing pipeline
(`src/config.py`, `src/rule_processing.py`, `src/llm_interactions.py`).

Severities are modelled as plain strings, as in the Python source
("warn" / "error" are string literals there).  A Python dict produced by a
template is modelled by `PatternConfig` whose fields are `Option String`
(a key can be absent).  Values that can sit in the config position of a
`(severity, config)` pair are modelled by `ConfigVal`: a real dict, a
non-dict object that nevertheless has a `.get` method, or a plain
non-dict value (int, list, None, ...) on which `config.get("selector")`
raises `AttributeError`.
-/

namespace Rules2Lint

/-- A generated pattern object `{"selector": ..., "message": ...}`.
Fields are optional because a Python dict can lack either key. -/
structure PatternConfig where
  selector : Option String
  message : Option String
deriving DecidableEq, Repr

/-- A Python value in the config position of a `(severity, config)` pair.
`dict c` is an actual dict; `getObj` is a non-dict object that has a
`.get` method (so `config.get("selector")` succeeds but
`isinstance(config, dict)` is false); `plain` is a non-dict value with no
`.get` method, on which `config.get("selector")` raises. -/
inductive ConfigVal where
  | dict (c : PatternConfig)
  | getObj
  | plain
deriving DecidableEq, Repr

/-- The backslash character. -/
def backslashChar : Char := Char.ofNat 92

/-- The single-quote character. -/
def singleQuoteChar : Char := Char.ofNat 39

/-- The double-quote character. -/
def doubleQuoteChar : Char := Char.ofNat 34

/-- One-character string: backslash. -/
def bsS : String := String.singleton backslashChar

/-- One-character string: single quote. -/
def sqS : String := String.singleton singleQuoteChar

/-- One-character string: double quote. -/
def dqS : String := String.singleton doubleQuoteChar

/-- Python `str.replace(old, new)` for a one-character `old`, which is the
only shape of `replace` used by the source escaping code. -/
def replaceChar (c : Char) (rep : String) (s : String) : String :=
  String.mk (s.data.flatMap (fun d => if d = c then rep.data else [d]))

/-- `term.replace("\\", "\\\\").replace("'", "\\'").replace('"', '\\"')`
from `rule_processing.py` line 13: escape for JS strings in messages. -/
def jsEscape (s : String) : String :=
  replaceChar doubleQuoteChar (bsS ++ dqS)
    (replaceChar singleQuoteChar (bsS ++ sqS)
      (replaceChar backslashChar (bsS ++ bsS) s))

/-- `term.replace("'", "\\'")` from `rule_processing.py` line 17: only
escape single quotes for the AST selector. -/
def selEscape (s : String) : String :=
  replaceChar singleQuoteChar (bsS ++ sqS) s

/-- Python `str.capitalize()`: first character upper-cased, the rest
lower-cased (used by the `Keyword` template via `kw.capitalize()`). -/
def pyCapitalize (s : String) : String :=
  match s.data with
  | [] => ""
  | c :: cs => String.mk (c.toUpper :: cs.map Char.toLower)

/-- `config.py` template for context `Identifier`. -/
def identifierTemplate (kw rule : String) : PatternConfig :=
  { selector := some ("Identifier[name=" ++ sqS ++ kw ++ sqS ++ "]"),
    message := some ("Usage of identifier " ++ sqS ++ kw ++ sqS ++
      " is restricted by rule: " ++ rule) }

/-- `config.py` template for context `Literal`. -/
def literalTemplate (kw rule : String) : PatternConfig :=
  { selector := some ("Literal[value=" ++ sqS ++ kw ++ sqS ++ "]"),
    message := some ("Usage of literal " ++ sqS ++ kw ++ sqS ++
      " is restricted by rule: " ++ rule) }

/-- `config.py` template for context `Operator`. -/
def operatorTemplate (kw rule : String) : PatternConfig :=
  { selector := some (":matches(BinaryExpression, LogicalExpression)[operator=" ++
      sqS ++ kw ++ sqS ++ "]"),
    message := some ("Usage of operator " ++ sqS ++ kw ++ sqS ++
      " is restricted by rule: " ++ rule) }

/-- `config.py` template for context `Keyword`. -/
def keywordTemplate (kw rule : String) : PatternConfig :=
  { selector := some (pyCapitalize kw ++ "Statement"),
    message := some ("Usage of keyword " ++ sqS ++ kw ++ sqS ++
      " is restricted by rule: " ++ rule) }

/-- `config.py` template for context `Property`. -/
def propertyTemplate (kw rule : String) : PatternConfig :=
  { selector := some ("MemberExpression[property.name=" ++ sqS ++ kw ++ sqS ++ "]"),
    message := some ("Usage of property " ++ sqS ++ kw ++ sqS ++
      " is restricted by rule: " ++ rule) }

/-- `config.py` template for context `Import`. -/
def importTemplate (kw rule : String) : PatternConfig :=
  { selector := some ("ImportDeclaration[source.value=" ++ sqS ++ kw ++ sqS ++ "]"),
    message := some ("Import from " ++ sqS ++ kw ++ sqS ++
      " is restricted by rule: " ++ rule) }

/-- `config.py` fallback template for context `Unknown`. -/
def unknownTemplate (kw rule : String) : PatternConfig :=
  { selector := some (":matches(Identifier[name=" ++ sqS ++ kw ++ sqS ++
      "], Literal[value=" ++ sqS ++ kw ++ sqS ++ "])"),
    message := some ("Usage of " ++ sqS ++ kw ++ sqS ++
      " is restricted by rule: " ++ rule ++ " (context unknown)") }

/-- The `KEYWORD_TEMPLATES` dict from `config.py`, as an association list. -/
def KEYWORD_TEMPLATES : List (String × (String → String → PatternConfig)) :=
  [("Identifier", identifierTemplate),
   ("Literal", literalTemplate),
   ("Operator", operatorTemplate),
   ("Keyword", keywordTemplate),
   ("Property", propertyTemplate),
   ("Import", importTemplate),
   ("Unknown", unknownTemplate)]

/-- `generate_eslint_config_object` from `rule_processing.py` lines 8-27.
`KEYWORD_TEMPLATES.get(context, KEYWORD_TEMPLATES["Unknown"])` is modelled
by an association-list lookup with `unknownTemplate` as the default.
Note that the source computes `js_escaped_term` but never passes it to the
template: the template receives `selector_escaped_term` (used in both the
selector and the message) and `js_escaped_rule_text`.  The templates are
total on strings (f-strings and `str.capitalize` cannot raise), so the
`except` branch returning `None` is unreachable for string inputs. -/
def generate_eslint_config_object (term context rule_text : String) :
    Option PatternConfig :=
  let js_escaped_term := jsEscape term
  let js_escaped_rule_text := jsEscape rule_text
  let selector_escaped_term := selEscape term
  let template_func := (KEYWORD_TEMPLATES.lookup context).getD unknownTemplate
  some (template_func selector_escaped_term js_escaped_rule_text)

/-- The loop body of `aggregate_eslint_configs` (`rule_processing.py`
lines 99-109), with state `(combined_syntax_configs, seen_selectors,
highest_severity)`.  For a `plain` non-dict config the very first
statement `selector = config.get("selector")` raises `AttributeError`
(line 101 runs before the `isinstance` check of line 103), modelled as
`.error ()`.  A `getObj` config survives `.get` but fails the
`isinstance` test and is skipped (with a logged warning).  A dict config
is appended iff its selector is present, non-empty and unseen. -/
def aggLoop : List (String × ConfigVal) → List PatternConfig → List String →
    String → Except Unit (List PatternConfig × List String × String)
  | [], cfgs, seen, hs => .ok (cfgs, seen, hs)
  | (severity, config) :: rest, cfgs, seen, hs =>
    match config with
    | .plain => .error ()
    | .getObj => aggLoop rest cfgs seen hs
    | .dict c =>
      match c.selector with
      | none => aggLoop rest cfgs seen hs
      | some s =>
        if s ≠ "" ∧ s ∉ seen then
          aggLoop rest (cfgs ++ [c]) (s :: seen)
            (if severity = "error" then "error" else hs)
        else
          aggLoop rest cfgs seen hs

/-- `aggregate_eslint_configs` from `rule_processing.py` lines 87-119.
The returned triple models `(final_rules_object, highest_severity,
rule_count)`: the rules object is `none` when empty, otherwise
`some (highest_severity, combined_syntax_configs)` standing for
`{"no-restricted-syntax": [highest_severity] + combined_syntax_configs}`.
`rule_count` starts at 0 and is set to the list length when the list is
non-empty, which is its length in every case. -/
def aggregate_eslint_configs (all_flag_configs : List (String × ConfigVal)) :
    Except Unit (Option (String × List PatternConfig) × String × Nat) :=
  match aggLoop all_flag_configs [] [] "warn" with
  | .error e => .error e
  | .ok (cfgs, _, hs) =>
    .ok (if cfgs.isEmpty then none else some (hs, cfgs), hs, cfgs.length)

/-- The deduplicated config sequence the aggregation loop produces from a
given input and seen-set: the characterization used in the theorems. -/
def dedupC : List (String × ConfigVal) → List String → List PatternConfig
  | [], _ => []
  | (_, config) :: rest, seen =>
    match config with
    | .dict c =>
      match c.selector with
      | some s =>
        if s ≠ "" ∧ s ∉ seen then c :: dedupC rest (s :: seen)
        else dedupC rest seen
      | none => dedupC rest seen
    | _ => dedupC rest seen

/-- Whether some pair that the aggregation loop appends (dict config with
non-empty unseen selector) carries severity `"error"`. -/
def errContrib : List (String × ConfigVal) → List String → Bool
  | [], _ => false
  | (severity, config) :: rest, seen =>
    match config with
    | .dict c =>
      match c.selector with
      | some s =>
        if s ≠ "" ∧ s ∉ seen then
          if severity = "error" then true else errContrib rest (s :: seen)
        else errContrib rest seen
      | none => errContrib rest seen
    | _ => errContrib rest seen

/-- The patterns sequence held by a modelled rules object. -/
def patternsOf : Option (String × List PatternConfig) → List PatternConfig
  | none => []
  | some (_, cfgs) => cfgs

/-- Modelled on the specification text for the Aggregator (spec section 4.7),
restricted to well-formed `(severity, PatternConfig)` pairs: single pass in
the order received, skip if the pattern was already seen, otherwise append
and mark seen — amended so that a pair whose pattern is empty or missing is
also skipped.  Used to compare the source aggregation against the spec. -/
def dedupSpec : List (String × PatternConfig) → List String → List PatternConfig
  | [], _ => []
  | (_, c) :: rest, seen =>
    match c.selector with
    | some s =>
      if s ≠ "" ∧ s ∉ seen then c :: dedupSpec rest (s :: seen)
      else dedupSpec rest seen
    | none => dedupSpec rest seen

/-- Re-wrap a list of `PatternConfig`s as aggregator input pairs. -/
def asDictPairs (l : List (String × PatternConfig)) : List (String × ConfigVal) :=
  l.map (fun p => (p.1, ConfigVal.dict p.2))

/-- The post-parse normalization block of `llm_refine_rule`
(`llm_interactions.py` lines 168-180): the if/elif/elif chain applied to the
parsed `(outcome, refined_rules)` before returning. -/
def llm_refine_rule_normalize (rule_text outcome : String)
    (refined_list : List String) : String × List String :=
  if outcome = "passed_through" ∧ refined_list = [] then (outcome, [rule_text])
  else if outcome = "translated" ∧ refined_list = [] then
    ("untranslatable", refined_list)
  else if outcome = "untranslatable" then (outcome, [])
  else (outcome, refined_list)

/-- A Python value as parsed from the LLM JSON response and inspected by
`llm_extract_flags`. -/
inductive PyValue where
  | pnone
  | pbool (b : Bool)
  | pint (n : Int)
  | pstr (s : String)
  | plist (items : List PyValue)
  | pdict (entries : List (String × PyValue))

/-- The validation performed by `llm_extract_flags`
(`llm_interactions.py` lines 272-293).  `callResult = none` models the
except branches (API failure, `json.JSONDecodeError`, `IndexError`,
`AttributeError`): they return `[]`.  On a parsed value, the source checks
`isinstance(result, dict) and "flags" in result and
isinstance(result["flags"], list)` and returns `result["flags"]` verbatim
when the check passes, `[]` otherwise.  No element-level validation. -/
def llm_extract_flags (callResult : Option PyValue) : List PyValue :=
  match callResult with
  | none => []
  | some result =>
    match result with
    | .pdict entries =>
      match entries.lookup "flags" with
      | some (.plist items) => items
      | some _ => []
      | none => []
    | _ => []

/-- Whether a `PyValue` has the shape of a Flag object required by the
extraction schema: a dict with string-valued `term`, `context` and
`severity` entries. -/
def wellFormedFlag : PyValue → Bool
  | .pdict entries =>
    match entries.lookup "term", entries.lookup "context",
        entries.lookup "severity" with
    | some (.pstr _), some (.pstr _), some (.pstr _) => true
    | _, _, _ => false
  | _ => false

/-- What a finished extraction task hands to the join point of
`run_parallel_rule_processing`: either its local result list, or the
exception it raised, modelled by its message (`str(exc)`) and the
traceback string `traceback.format_exc()` captures. -/
structure ExcInfo where
  msg : String
  tb : String
deriving DecidableEq, Repr

/-- One join-point step of `run_parallel_rule_processing`
(`rule_processing.py` lines 73-83): on success, `all_flag_configs` is
extended with the task's result list; on failure, two messages are written
(`Error retrieving result from future: {exc}` and the traceback) and
nothing is added to the result.  The task's source rule text (`t.1`) is
not available at the join point and appears in neither message. -/
def joinStep (acc : List (String × ConfigVal) × List String)
    (t : String × Except ExcInfo (List (String × ConfigVal))) :
    List (String × ConfigVal) × List String :=
  match t.2 with
  | .ok result_list => (acc.1 ++ result_list, acc.2)
  | .error e =>
    (acc.1, acc.2 ++
      ["\nError retrieving result from future: " ++ e.msg,
       "Traceback:\n" ++ e.tb])

/-- `run_parallel_rule_processing` from `rule_processing.py` lines 55-85,
modelled at the join point: the input list carries, in completion order,
each task's source rule text and its outcome (returned list or raised
exception).  Returns the collected `all_flag_configs` and the list of
warning messages written for failed tasks. -/
def run_parallel_rule_processing
    (tasks : List (String × Except ExcInfo (List (String × ConfigVal)))) :
    List (String × ConfigVal) × List String :=
  tasks.foldl joinStep ([], [])

/-- The pairs a single task contributes to the collected result. -/
def okPart (t : String × Except ExcInfo (List (String × ConfigVal))) :
    List (String × ConfigVal) :=
  match t.2 with
  | .ok result_list => result_list
  | .error _ => []

/-- The log messages a single task contributes at the join point. -/
def logPart (t : String × Except ExcInfo (List (String × ConfigVal))) :
    List String :=
  match t.2 with
  | .ok _ => []
  | .error e =>
    ["\nError retrieving result from future: " ++ e.msg,
     "Traceback:\n" ++ e.tb]

/-- Whether a task failed (its future raised). -/
def isFailedTask (t : String × Except ExcInfo (List (String × ConfigVal))) :
    Bool :=
  match t.2 with
  | .ok _ => false
  | .error _ => true

/-- Whether `needle` occurs as a contiguous substring of `hay`. -/
def strContainsB (needle hay : String) : Bool :=
  (List.range (hay.data.length + 1)).any
    (fun i => (hay.data.drop i).take needle.data.length == needle.data)

/-- A successful run of the aggregation loop never saw a `plain` non-dict
config (those raise before the loop can continue). -/
theorem aggLoop_ok_noPlain (l : List (String × ConfigVal)) :
    ∀ (cfgs : List PatternConfig) (seen : List String) (hs : String) r,
    aggLoop l cfgs seen hs = .ok r → ∀ p ∈ l, p.2 ≠ ConfigVal.plain := by
  induction l with
  | nil => intro _ _ _ _ _ p hp; exact absurd hp (List.not_mem_nil p)
  | cons q rest ih =>
    intro cfgs seen hs r hrun p hp
    obtain ⟨severity, config⟩ := q
    match config with
    | .plain => exact absurd hrun (by simp [aggLoop])
    | .getObj =>
      rcases List.mem_cons.mp hp with hp1 | hp1
      · subst hp1; simp
      · exact ih cfgs seen hs r (by simpa only [aggLoop] using hrun) p hp1
    | .dict c =>
      rcases List.mem_cons.mp hp with hp1 | hp1
      · subst hp1; simp
      · cases hsel : c.selector with
        | none =>
          refine ih cfgs seen hs r ?_ p hp1
          simpa only [aggLoop, hsel] using hrun
        | some s =>
          by_cases hc : s ≠ "" ∧ s ∉ seen
          · refine ih (cfgs ++ [c]) (s :: seen)
              (if severity = "error" then "error" else hs) r ?_ p hp1
            simpa only [aggLoop, hsel, if_pos hc] using hrun
          · refine ih cfgs seen hs r ?_ p hp1
            simpa only [aggLoop, hsel, if_neg hc] using hrun

/-- Characterization of a successful aggregation loop run: the configs it
accumulates are exactly `dedupC`, and the final severity is `"error"` iff
an appended pair carried severity `"error"` (`errContrib`), the initial
severity otherwise. -/
theorem aggLoop_eq_spec (l : List (String × ConfigVal)) :
    ∀ (cfgs : List PatternConfig) (seen : List String) (hs : String),
    (∀ p ∈ l, p.2 ≠ ConfigVal.plain) →
    ∃ seen2, aggLoop l cfgs seen hs =
      .ok (cfgs ++ dedupC l seen, seen2,
        if errContrib l seen then "error" else hs) := by
  induction l with
  | nil =>
    intro cfgs seen hs _
    exact ⟨seen, by simp [aggLoop, dedupC, errContrib]⟩
  | cons q rest ih =>
    intro cfgs seen hs hnp
    obtain ⟨severity, config⟩ := q
    have hnp2 : ∀ p ∈ rest, p.2 ≠ ConfigVal.plain :=
      fun p hp => hnp p (List.mem_cons_of_mem _ hp)
    match config with
    | .plain =>
      exact absurd rfl (hnp (severity, ConfigVal.plain) (List.mem_cons_self _ _))
    | .getObj =>
      obtain ⟨seen2, h⟩ := ih cfgs seen hs hnp2
      exact ⟨seen2, by simpa only [aggLoop, dedupC, errContrib] using h⟩
    | .dict c =>
      cases hsel : c.selector with
      | none =>
        obtain ⟨seen2, h⟩ := ih cfgs seen hs hnp2
        exact ⟨seen2, by simpa only [aggLoop, dedupC, errContrib, hsel] using h⟩
      | some s =>
        by_cases hc : s ≠ "" ∧ s ∉ seen
        · by_cases he : severity = "error"
          · obtain ⟨seen2, h⟩ := ih (cfgs ++ [c]) (s :: seen) "error" hnp2
            refine ⟨seen2, ?_⟩
            simp only [aggLoop, dedupC, errContrib, hsel, if_pos hc, if_pos he]
            rw [h]
            simp [List.append_assoc]
          · obtain ⟨seen2, h⟩ := ih (cfgs ++ [c]) (s :: seen) hs hnp2
            refine ⟨seen2, ?_⟩
            simp only [aggLoop, dedupC, errContrib, hsel, if_pos hc, if_neg he]
            rw [h]
            simp [List.append_assoc]
        · obtain ⟨seen2, h⟩ := ih cfgs seen hs hnp2
          refine ⟨seen2, ?_⟩
          simpa only [aggLoop, dedupC, errContrib, hsel, if_neg hc] using h

/-- If the loop appends nothing, no appended pair carried an error. -/
theorem errContrib_false_of_dedupC_nil (l : List (String × ConfigVal)) :
    ∀ seen, dedupC l seen = [] → errContrib l seen = false := by
  induction l with
  | nil => intro seen _; rfl
  | cons q rest ih =>
    intro seen hded
    obtain ⟨severity, config⟩ := q
    match config with
    | .plain => exact ih seen hded
    | .getObj => exact ih seen hded
    | .dict c =>
      cases hsel : c.selector with
      | none =>
        simp only [dedupC, hsel] at hded
        simpa only [errContrib, hsel] using ih seen hded
      | some s =>
        by_cases hc : s ≠ "" ∧ s ∉ seen
        · simp only [dedupC, hsel, if_pos hc] at hded
          exact absurd hded (List.cons_ne_nil _ _)
        · simp only [dedupC, hsel, if_neg hc] at hded
          simpa only [errContrib, hsel, if_neg hc] using ih seen hded

/-- Every config the loop appends has a non-empty selector that was not in
the initial seen-set. -/
theorem dedupC_mem (l : List (String × ConfigVal)) :
    ∀ (seen : List String), ∀ c ∈ dedupC l seen,
    ∃ s, c.selector = some s ∧ s ≠ "" ∧ s ∉ seen := by
  induction l with
  | nil => intro seen c hc; exact absurd hc (List.not_mem_nil c)
  | cons q rest ih =>
    intro seen c hc
    obtain ⟨severity, config⟩ := q
    match config with
    | .plain => exact ih seen c hc
    | .getObj => exact ih seen c hc
    | .dict c0 =>
      cases hsel : c0.selector with
      | none =>
        simp only [dedupC, hsel] at hc
        exact ih seen c hc
      | some s =>
        by_cases hcnd : s ≠ "" ∧ s ∉ seen
        · simp only [dedupC, hsel, if_pos hcnd] at hc
          rcases List.mem_cons.mp hc with hc1 | hc1
          · subst hc1; exact ⟨s, hsel, hcnd⟩
          · obtain ⟨t, ht, htne, htmem⟩ := ih (s :: seen) c hc1
            exact ⟨t, ht, htne, fun hmem => htmem (List.mem_cons_of_mem _ hmem)⟩
        · simp only [dedupC, hsel, if_neg hcnd] at hc
          exact ih seen c hc

/-- The configs the loop appends have pairwise distinct selectors. -/
theorem dedupC_pairwise (l : List (String × ConfigVal)) :
    ∀ (seen : List String),
    (dedupC l seen).Pairwise (fun a b => a.selector ≠ b.selector) := by
  induction l with
  | nil => intro seen; simp [dedupC]
  | cons q rest ih =>
    intro seen
    obtain ⟨severity, config⟩ := q
    match config with
    | .plain => exact ih seen
    | .getObj => exact ih seen
    | .dict c0 =>
      cases hsel : c0.selector with
      | none => simpa only [dedupC, hsel] using ih seen
      | some s =>
        by_cases hcnd : s ≠ "" ∧ s ∉ seen
        · simp only [dedupC, hsel, if_pos hcnd]
          refine List.Pairwise.cons ?_ (ih (s :: seen))
          intro b hb
          obtain ⟨t, ht, _, htmem⟩ := dedupC_mem rest (s :: seen) b hb
          rw [hsel, ht]
          intro heq
          exact htmem (by simp [Option.some_injective _ heq])
        · simpa only [dedupC, hsel, if_neg hcnd] using ih seen

/-- Running the aggregation loop over a list of dict configs whose
selectors are non-empty, pairwise distinct and disjoint from the seen-set
appends all of them in order; the resulting severity is the common input
severity `"error"` if the list is non-empty and carries it, otherwise the
initial severity. -/
theorem aggLoop_on_distinct (h0 : String) :
    ∀ (cs : List PatternConfig) (cfgs : List PatternConfig)
      (seen : List String) (hs : String),
    (∀ c ∈ cs, ∃ s, c.selector = some s ∧ s ≠ "" ∧ s ∉ seen) →
    cs.Pairwise (fun a b => a.selector ≠ b.selector) →
    ∃ seen2, aggLoop (cs.map (fun c => (h0, ConfigVal.dict c))) cfgs seen hs =
      .ok (cfgs ++ cs, seen2,
        if cs.isEmpty then hs else if h0 = "error" then "error" else hs) := by
  intro cs
  induction cs with
  | nil => intro cfgs seen hs _ _; exact ⟨seen, by simp [aggLoop]⟩
  | cons c rest ih =>
    intro cfgs seen hs hmem hpw
    obtain ⟨s, hsel, hne, hnotin⟩ := hmem c (List.mem_cons_self _ _)
    obtain ⟨hhead, htail⟩ := List.pairwise_cons.mp hpw
    have hrest : ∀ b ∈ rest, ∃ t, b.selector = some t ∧ t ≠ "" ∧ t ∉ s :: seen := by
      intro b hb
      obtain ⟨t, ht, htne, htmem⟩ := hmem b (List.mem_cons_of_mem _ hb)
      refine ⟨t, ht, htne, ?_⟩
      intro hmem2
      rcases List.mem_cons.mp hmem2 with h1 | h1
      · exact hhead b hb (by rw [hsel, ht, h1])
      · exact htmem h1
    obtain ⟨seen2, heq⟩ := ih (cfgs ++ [c]) (s :: seen)
      (if h0 = "error" then "error" else hs) hrest htail
    refine ⟨seen2, ?_⟩
    simp only [List.map_cons, aggLoop, hsel, if_pos (And.intro hne hnotin)]
    have hlist : (cfgs ++ [c]) ++ rest = cfgs ++ c :: rest := by simp
    rw [heq, hlist]
    by_cases he : h0 = "error"
    · simp [he]
    · simp [he]

/-- On well-formed dict pairs, the source aggregation loop's config output
coincides with the spec-text single-pass dedup. -/
theorem dedupC_asDictPairs (l : List (String × PatternConfig)) :
    ∀ seen, dedupC (asDictPairs l) seen = dedupSpec l seen := by
  induction l with
  | nil => intro seen; rfl
  | cons q rest ih =>
    intro seen
    obtain ⟨severity, c⟩ := q
    cases hsel : c.selector with
    | none => simpa only [asDictPairs, List.map_cons, dedupC, dedupSpec, hsel]
        using ih seen
    | some s =>
      by_cases hc : s ≠ "" ∧ s ∉ seen
      · simp only [asDictPairs, List.map_cons, dedupC, dedupSpec, hsel, if_pos hc]
        exact congrArg (c :: ·) (ih (s :: seen))
      · simpa only [asDictPairs, List.map_cons, dedupC, dedupSpec, hsel, if_neg hc]
          using ih seen

/-- The join point of the orchestrator collects exactly the successful
tasks' pairs, in completion order, and logs exactly the failed tasks'
messages. -/
theorem joinStep_foldl (ts : List (String × Except ExcInfo (List (String × ConfigVal)))) :
    ∀ acc, ts.foldl joinStep acc =
      (acc.1 ++ (ts.map okPart).flatten, acc.2 ++ (ts.map logPart).flatten) := by
  induction ts with
  | nil => intro acc; simp
  | cons t rest ih =>
    intro acc
    match ht : t.2 with
    | .ok result_list =>
      simp only [List.foldl_cons, List.map_cons, List.flatten_cons]
      rw [ih, joinStep]
      simp [okPart, logPart, ht]
    | .error e =>
      simp only [List.foldl_cons, List.map_cons, List.flatten_cons]
      rw [ih, joinStep]
      simp [okPart, logPart, ht]

/-- An input whose pairs all avoid severity `"error"` contributes no
error. -/
theorem errContrib_false_of_all_warn (l : List (String × ConfigVal)) :
    ∀ seen, (∀ p ∈ l, p.1 ≠ "error") → errContrib l seen = false := by
  induction l with
  | nil => intro seen _; rfl
  | cons q rest ih =>
    intro seen hw
    obtain ⟨severity, config⟩ := q
    have hw2 : ∀ p ∈ rest, p.1 ≠ "error" :=
      fun p hp => hw p (List.mem_cons_of_mem _ hp)
    have hsev : severity ≠ "error" :=
      hw (severity, config) (List.mem_cons_self _ _)
    match config with
    | .plain => exact ih seen hw2
    | .getObj => exact ih seen hw2
    | .dict c =>
      cases hsel : c.selector with
      | none => simpa only [errContrib, hsel] using ih seen hw2
      | some s =>
        by_cases hc : s ≠ "" ∧ s ∉ seen
        · simpa only [errContrib, hsel, if_pos hc, if_neg hsev] using
            ih (s :: seen) hw2
        · simpa only [errContrib, hsel, if_neg hc] using ih seen hw2

/-- The six recognized context tags of the claim (excluding the fallback
`Unknown`). -/
def sixTags : List String :=
  ["Identifier", "Literal", "Operator", "Keyword", "Property", "Import"]

/-- C1 counterexample: an input containing an `error`-severity pair whose
config duplicates an earlier selector yields overall severity `"warn"`,
although at least one input pair has severity `"error"` — the source only
elevates the severity of pairs it appends. -/
theorem c1_severity_counterexample :
    aggregate_eslint_configs
      [("warn", ConfigVal.dict ⟨some "A", some "m"⟩),
       ("error", ConfigVal.dict ⟨some "A", some "m2"⟩)] =
      .ok (some ("warn", [⟨some "A", some "m"⟩]), "warn", 1) ∧
    ("error", ConfigVal.dict (⟨some "A", some "m2"⟩ : PatternConfig)) ∈
      [("warn", ConfigVal.dict (⟨some "A", some "m"⟩ : PatternConfig)),
       ("error", ConfigVal.dict ⟨some "A", some "m2"⟩)] ∧
    ("warn" : String) ≠ "error" :=
  ⟨rfl, by simp, by decide⟩

/-- C1 (amended): on a successful aggregation run, the overall severity is
`"error"` iff some pair the loop actually appends (a dict config with a
non-empty, not-yet-seen selector) carries severity `"error"`; otherwise it
stays at its initial value `"warn"`.  In particular an all-`warn` input
yields `"warn"`, and the severity is never downgraded. -/
theorem c1_severity_characterization
    (l : List (String × ConfigVal)) (obj : Option (String × List PatternConfig))
    (hs : String) (n : Nat)
    (h : aggregate_eslint_configs l = .ok (obj, hs, n)) :
    hs = if errContrib l [] then "error" else "warn" := by
  have hnp : ∀ p ∈ l, p.2 ≠ ConfigVal.plain := by
    cases hrun : aggLoop l [] [] "warn" with
    | error e =>
      unfold aggregate_eslint_configs at h
      rw [hrun] at h
      exact absurd h (by simp)
    | ok st =>
      obtain ⟨a, b, c⟩ := st
      exact aggLoop_ok_noPlain l [] [] "warn" (a, b, c) hrun
  obtain ⟨seen2, hspec⟩ := aggLoop_eq_spec l [] [] "warn" hnp
  unfold aggregate_eslint_configs at h
  rw [hspec] at h
  simp only [Except.ok.injEq, Prod.mk.injEq, List.nil_append] at h
  exact h.2.1.symm

/-- C1 witness: a concrete successful run with an appended error pair. -/
theorem c1_severity_characterization_witness :
    ("error" : String) =
      if errContrib [("error", ConfigVal.dict ⟨some "A", some "m"⟩)] []
      then "error" else "warn" :=
  c1_severity_characterization
    [("error", ConfigVal.dict ⟨some "A", some "m"⟩)]
    (some ("error", [⟨some "A", some "m"⟩])) "error" 1 rfl

/-- C2: evaluated at a pair whose config is a plain non-dict value, the
aggregator raises (the modelled `AttributeError` from
`config.get("selector")` on line 101, which runs before the `isinstance`
check of line 103) instead of skipping the element with a warning. -/
theorem c2_plain_config_raises :
    aggregate_eslint_configs [("warn", ConfigVal.plain)] = .error () := rfl

/-- C3: at term `"` (one double-quote character), context `Identifier`,
rule text `r`, the rendered message embeds the selector-escaped term — the
double quote stays unescaped — because the source computes
`js_escaped_term` but never passes it to the template; the broader JS
escaping would have produced a backslash-escaped double quote. -/
theorem c3_message_uses_selector_escaped_term :
    generate_eslint_config_object dqS "Identifier" "r" =
      some { selector := some ("Identifier[name=" ++ sqS ++ dqS ++ sqS ++ "]"),
             message := some ("Usage of identifier " ++ sqS ++ dqS ++ sqS ++
               " is restricted by rule: r") } ∧
    selEscape dqS = dqS ∧ jsEscape dqS = bsS ++ dqS ∧ bsS ++ dqS ≠ dqS :=
  ⟨rfl, rfl, rfl, by decide⟩

/-- C4 counterexample: a pair whose pattern is the (unseen) empty string
is not appended — Python truthiness skips it — so the claim that every
pair with an unseen pattern is appended fails; the result has no patterns
and `pattern_count` 0 rather than the claimed singleton sequence. -/
theorem c4_empty_pattern_counterexample :
    aggregate_eslint_configs [("warn", ConfigVal.dict ⟨some "", some "m"⟩)] =
      .ok (none, "warn", 0) ∧
    (.ok (none, "warn", 0) :
        Except Unit (Option (String × List PatternConfig) × String × Nat)) ≠
      .ok (some ("warn", [⟨some "", some "m"⟩]), "warn", 1) :=
  ⟨rfl, by simp⟩

/-- C4 (amended): on well-formed `(severity, PatternConfig)` pairs the
aggregator deduplicates in a single pass in the order received: a pair
whose pattern equals an earlier-appended one is skipped (first-seen config
and message win), every pair with a non-empty unseen pattern is appended
in order, pairs with an empty or missing pattern are also skipped, and
`pattern_count` equals the length of the deduplicated sequence. -/
theorem c4_dedup_matches_spec (l : List (String × PatternConfig)) :
    ∃ hs, aggregate_eslint_configs (asDictPairs l) =
      .ok ((if (dedupSpec l []).isEmpty then none
              else some (hs, dedupSpec l [])),
           hs, (dedupSpec l []).length) := by
  have hnp : ∀ p ∈ asDictPairs l, p.2 ≠ ConfigVal.plain := by
    intro p hp
    obtain ⟨q, hq, rfl⟩ := List.mem_map.mp hp
    simp
  obtain ⟨seen2, hspec⟩ := aggLoop_eq_spec (asDictPairs l) [] [] "warn" hnp
  refine ⟨if errContrib (asDictPairs l) [] then "error" else "warn", ?_⟩
  unfold aggregate_eslint_configs
  rw [hspec]
  rw [show dedupC (asDictPairs l) [] = dedupSpec l [] from
    dedupC_asDictPairs l []]
  simp

/-- C5: the Refine Stage normalization invariants, exactly as the source
enforces them: an empty list with outcome `passed_through` becomes the
original rule text; an empty list with outcome `translated` demotes the
outcome to `untranslatable`; outcome `untranslatable` forces the list
empty whatever was returned. -/
theorem c5_refine_normalization (rule_text : String) (l : List String) :
    llm_refine_rule_normalize rule_text "passed_through" [] =
      ("passed_through", [rule_text]) ∧
    llm_refine_rule_normalize rule_text "translated" [] =
      ("untranslatable", []) ∧
    llm_refine_rule_normalize rule_text "untranslatable" l =
      ("untranslatable", []) := by
  refine ⟨rfl, rfl, ?_⟩
  simp [llm_refine_rule_normalize]

/-- C6 counterexample: a parsed result whose `flags` value is a list with
a wrong-shaped element (the integer 42) is returned verbatim — malformed
data, not the empty list. -/
theorem c6_wrong_shape_counterexample :
    llm_extract_flags (some (.pdict [("flags", .plist [.pint 42])])) =
      [.pint 42] ∧
    wellFormedFlag (.pint 42) = false ∧
    llm_extract_flags (some (.pdict [("flags", .plist [.pint 42])])) ≠ [] := by
  refine ⟨rfl, rfl, ?_⟩
  intro h
  rw [show llm_extract_flags (some (.pdict [("flags", .plist [.pint 42])])) =
    [.pint 42] from rfl] at h
  exact List.cons_ne_nil _ _ h

/-- C6 (amended): the extraction stage returns `[]` whenever the gateway
call fails, the parsed result is not a dict, lacks the `flags` key, or its
`flags` value is not a list; when `flags` is a list it is returned
verbatim, with no element-shape validation. -/
theorem c6_extract_safe_default (r : Option PyValue) :
    llm_extract_flags r = [] ∨
    ∃ entries items, r = some (.pdict entries) ∧
      entries.lookup "flags" = some (.plist items) ∧
      llm_extract_flags r = items := by
  match r with
  | none => exact Or.inl rfl
  | some .pnone => exact Or.inl rfl
  | some (.pbool b) => exact Or.inl rfl
  | some (.pint n) => exact Or.inl rfl
  | some (.pstr s) => exact Or.inl rfl
  | some (.plist items) => exact Or.inl rfl
  | some (.pdict entries) =>
    have hred : llm_extract_flags (some (.pdict entries)) =
        (match entries.lookup "flags" with
         | some (.plist items) => items
         | some _ => []
         | none => []) := rfl
    match hl : entries.lookup "flags" with
    | none => exact Or.inl (by rw [hred, hl])
    | some .pnone => exact Or.inl (by rw [hred, hl])
    | some (.pbool b) => exact Or.inl (by rw [hred, hl])
    | some (.pint n) => exact Or.inl (by rw [hred, hl])
    | some (.pstr s) => exact Or.inl (by rw [hred, hl])
    | some (.pdict es) => exact Or.inl (by rw [hred, hl])
    | some (.plist items) =>
      exact Or.inr ⟨entries, items, rfl, hl, by rw [hred, hl]⟩

/-- C7 counterexample: a concrete two-task run with one failing task.  The
join point collects the other task's pairs, but the two warning messages
it writes contain the exception text and the traceback only — the failing
task's source rule text `r1` occurs in neither. -/
theorem c7_log_lacks_rule_text :
    run_parallel_rule_processing
      [("r1", .error ⟨"boom", "tb0"⟩),
       ("r2", .ok [("warn", ConfigVal.dict ⟨some "B", some "m"⟩)])] =
      ([("warn", ConfigVal.dict ⟨some "B", some "m"⟩)],
       ["\nError retrieving result from future: boom", "Traceback:\ntb0"]) ∧
    strContainsB "r1" "\nError retrieving result from future: boom" = false ∧
    strContainsB "r1" "Traceback:\ntb0" = false :=
  ⟨rfl, by decide, by decide⟩

/-- C7 (amended): when exactly one of the submitted tasks fails, the
orchestrator returns all pairs produced by the other tasks (in completion
order) without raising, and logs the failure with the exception text and
its captured stack trace; the join-point log does not carry the failing
task's source rule text. -/
theorem c7_fault_isolation
    (ts : List (String × Except ExcInfo (List (String × ConfigVal))))
    (h : (ts.filter (fun t => isFailedTask t)).length = 1) :
    (run_parallel_rule_processing ts).1 = (ts.map okPart).flatten ∧
    (run_parallel_rule_processing ts).2 = (ts.map logPart).flatten := by
  unfold run_parallel_rule_processing
  rw [joinStep_foldl ts ([], [])]
  simp

/-- C7 witness: the two-task run with one failure. -/
theorem c7_fault_isolation_witness :
    (run_parallel_rule_processing
      [("r1", .error ⟨"boom", "tb0"⟩),
       ("r2", .ok [("warn", ConfigVal.dict ⟨some "B", some "m"⟩)])]).1 =
      ([("r1", .error ⟨"boom", "tb0"⟩),
        ("r2", .ok [("warn", ConfigVal.dict ⟨some "B", some "m"⟩)])].map
          okPart).flatten ∧
    (run_parallel_rule_processing
      [("r1", .error ⟨"boom", "tb0"⟩),
       ("r2", .ok [("warn", ConfigVal.dict ⟨some "B", some "m"⟩)])]).2 =
      ([("r1", .error ⟨"boom", "tb0"⟩),
        ("r2", .ok [("warn", ConfigVal.dict ⟨some "B", some "m"⟩)])].map
          logPart).flatten :=
  c7_fault_isolation _ rfl

/-- C8: rendering with a context that is not one of the six recognized
tags uses the `Unknown` template, and rendering never takes the failure
path (it always produces a config — the templates are total on strings, so
the caught-exception branch returning `None` is unreachable). -/
theorem c8_unknown_fallback (term context rule_text : String) :
    (context ∉ sixTags →
      generate_eslint_config_object term context rule_text =
        some (unknownTemplate (selEscape term) (jsEscape rule_text))) ∧
    generate_eslint_config_object term context rule_text ≠ none := by
  constructor
  · intro hni
    by_cases hu : context = "Unknown"
    · subst hu; rfl
    · have h1 : context ≠ "Identifier" := fun e => hni (by rw [e]; simp [sixTags])
      have h2 : context ≠ "Literal" := fun e => hni (by rw [e]; simp [sixTags])
      have h3 : context ≠ "Operator" := fun e => hni (by rw [e]; simp [sixTags])
      have h4 : context ≠ "Keyword" := fun e => hni (by rw [e]; simp [sixTags])
      have h5 : context ≠ "Property" := fun e => hni (by rw [e]; simp [sixTags])
      have h6 : context ≠ "Import" := fun e => hni (by rw [e]; simp [sixTags])
      have b1 : (context == "Identifier") = false := beq_eq_false_iff_ne.mpr h1
      have b2 : (context == "Literal") = false := beq_eq_false_iff_ne.mpr h2
      have b3 : (context == "Operator") = false := beq_eq_false_iff_ne.mpr h3
      have b4 : (context == "Keyword") = false := beq_eq_false_iff_ne.mpr h4
      have b5 : (context == "Property") = false := beq_eq_false_iff_ne.mpr h5
      have b6 : (context == "Import") = false := beq_eq_false_iff_ne.mpr h6
      have b7 : (context == "Unknown") = false := beq_eq_false_iff_ne.mpr hu
      simp [generate_eslint_config_object, KEYWORD_TEMPLATES, List.lookup,
        b1, b2, b3, b4, b5, b6, b7]
  · simp [generate_eslint_config_object]

/-- C8 witness: a concrete unrecognized context. -/
theorem c8_unknown_fallback_witness :
    generate_eslint_config_object "a" "Bogus" "r" =
      some (unknownTemplate (selEscape "a") (jsEscape "r")) :=
  (c8_unknown_fallback "a" "Bogus" "r").1 (by decide)

/-- C9: aggregation is idempotent — re-aggregating the deduplicated
patterns of a successful run, each re-wrapped with the run's overall
severity, reproduces the same rules object, severity and count. -/
theorem c9_aggregate_idempotent
    (l : List (String × ConfigVal)) (obj : Option (String × List PatternConfig))
    (hs : String) (n : Nat)
    (h : aggregate_eslint_configs l = .ok (obj, hs, n)) :
    aggregate_eslint_configs
      ((patternsOf obj).map (fun c => (hs, ConfigVal.dict c))) =
      .ok (obj, hs, n) := by
  have hnp : ∀ p ∈ l, p.2 ≠ ConfigVal.plain := by
    cases hrun : aggLoop l [] [] "warn" with
    | error e =>
      unfold aggregate_eslint_configs at h
      rw [hrun] at h
      exact absurd h (by simp)
    | ok st =>
      obtain ⟨a, b, c⟩ := st
      exact aggLoop_ok_noPlain l [] [] "warn" (a, b, c) hrun
  obtain ⟨seen2, hspec⟩ := aggLoop_eq_spec l [] [] "warn" hnp
  unfold aggregate_eslint_configs at h
  rw [hspec] at h
  simp only [Except.ok.injEq, Prod.mk.injEq, List.nil_append] at h
  obtain ⟨h1, h2, h3⟩ := h
  by_cases hD : (dedupC l []).isEmpty
  · have hDnil : dedupC l [] = [] := List.isEmpty_iff.mp hD
    have herr : errContrib l [] = false :=
      errContrib_false_of_dedupC_nil l [] hDnil
    rw [hDnil] at h1 h3
    rw [herr] at h2
    simp only [List.isEmpty_nil, if_pos] at h1
    subst h1
    subst h2
    subst h3
    simp [patternsOf, aggregate_eslint_configs, aggLoop]
  · have hobj : obj = some ((if errContrib l [] then "error" else "warn"),
        dedupC l []) := by
      rw [← h1, if_neg (by simpa using hD)]
    have hpat : patternsOf obj = dedupC l [] := by rw [hobj]; rfl
    obtain ⟨seen3, hrun2⟩ := aggLoop_on_distinct hs (dedupC l []) [] [] "warn"
      (dedupC_mem l []) (dedupC_pairwise l [])
    rw [hpat]
    unfold aggregate_eslint_configs
    rw [hrun2]
    have hsev : (if (dedupC l []).isEmpty then "warn"
        else if hs = "error" then "error" else "warn") = hs := by
      rw [if_neg hD, ← h2]
      cases herr : errContrib l [] <;> simp [herr]
    rw [hsev]
    simp only [List.nil_append, if_neg hD]
    rw [hobj, ← h2, ← h3]

/-- C9 witness: a duplicate-selector error input re-aggregated. -/
theorem c9_aggregate_idempotent_witness :
    aggregate_eslint_configs
      ((patternsOf (some ("error", [⟨some "A", some "m"⟩]))).map
        (fun c => ("error", ConfigVal.dict c))) =
      .ok (some ("error", [⟨some "A", some "m"⟩]), "error", 1) :=
  c9_aggregate_idempotent
    [("error", ConfigVal.dict ⟨some "A", some "m"⟩),
     ("error", ConfigVal.dict ⟨some "A", some "m2"⟩)]
    (some ("error", [⟨some "A", some "m"⟩])) "error" 1 rfl

/-- C10: when a successful aggregation appends nothing (empty input, or no
element contributes a dict config with a non-empty unseen selector), the
returned rules object is empty (no `no-restricted-syntax` entry), the
overall severity is `"warn"` and the pattern count is 0. -/
theorem c10_empty_aggregate
    (l : List (String × ConfigVal)) (obj : Option (String × List PatternConfig))
    (hs : String) (n : Nat)
    (h : aggregate_eslint_configs l = .ok (obj, hs, n))
    (hempty : dedupC l [] = []) :
    obj = none ∧ hs = "warn" ∧ n = 0 := by
  have hnp : ∀ p ∈ l, p.2 ≠ ConfigVal.plain := by
    cases hrun : aggLoop l [] [] "warn" with
    | error e =>
      unfold aggregate_eslint_configs at h
      rw [hrun] at h
      exact absurd h (by simp)
    | ok st =>
      obtain ⟨a, b, c⟩ := st
      exact aggLoop_ok_noPlain l [] [] "warn" (a, b, c) hrun
  obtain ⟨seen2, hspec⟩ := aggLoop_eq_spec l [] [] "warn" hnp
  unfold aggregate_eslint_configs at h
  rw [hspec] at h
  simp only [Except.ok.injEq, Prod.mk.injEq, List.nil_append] at h
  obtain ⟨h1, h2, h3⟩ := h
  have herr : errContrib l [] = false :=
    errContrib_false_of_dedupC_nil l [] hempty
  rw [hempty] at h1 h3
  rw [herr] at h2
  simp only [List.isEmpty_nil, if_pos] at h1
  exact ⟨h1.symm, by rw [← h2]; simp, by rw [← h3]; rfl⟩

/-- C10 witness: an input whose elements all fail to contribute. -/
theorem c10_empty_aggregate_witness :
    (none : Option (String × List PatternConfig)) = none ∧
    ("warn" : String) = "warn" ∧ (0 : Nat) = 0 :=
  c10_empty_aggregate
    [("error", ConfigVal.getObj), ("warn", ConfigVal.dict ⟨none, some "m"⟩),
     ("warn", ConfigVal.dict ⟨some "", some "m"⟩)]
    none "warn" 0 rfl rfl

end Rules2Lint
